import Mathlib

set_option linter.unusedVariables false
set_option linter.unreachableTactic false
set_option linter.unusedTactic false

namespace Curator

/-- Pair of input and output token counts, mirroring the status tracker's
token-count value type used by the online request processor. -/
structure _TokenCount where
  input : Int
  output : Int
  deriving DecidableEq

/-- Error kinds raised inside the single-attempt lifecycle of
`handle_single_request_with_retries` in
`base_online_request_processor.py`.  `rateLimit` and `apiError` come from
`call_single_request`; `readTimeout` models an `httpx.ReadTimeout` from the
HTTP post (the handler tests the class name for the substring "ReadTimeout");
`invalidFinish` is the `ValueError` raised on an invalid `finish_reason`;
`schemaMismatch` is raised by `response_to_response_format`; `other` is any
other exception. -/
inductive ErrKind
  | rateLimit
  | apiError
  | readTimeout
  | invalidFinish
  | schemaMismatch
  | other
  deriving DecidableEq

/-- Serialization of an error as a string, modelling the `str(e)` applied to
each accumulated error when building a permanent-failure record. -/
def errStr : ErrKind → String
  | ErrKind.rateLimit => "API error rate limit"
  | ErrKind.apiError => "API error"
  | ErrKind.readTimeout => "read timeout"
  | ErrKind.invalidFinish => "finish_reason was invalid"
  | ErrKind.schemaMismatch => "response format mismatch"
  | ErrKind.other => "exception"

/-- The observable outcome of one HTTP call made by `call_single_request` in
`online/openai_online_request_processor.py` (lines 199-254):
either a decoded 200 body with usage numbers (whose `finish_reason` may be in
the configured invalid set and whose message may fail the response-format
validation performed later by the handler), a decoded body carrying an
`error` field (possibly rate-limit classified), a non-200 status, a read
timeout raised by the post itself, or any other exception. -/
inductive CallOutcome
  | httpOk (prompt : Int) (completion : Int) (finishInvalid : Bool) (schemaOk : Bool)
  | errorBody (isRateLimit : Bool)
  | badStatus
  | readTimeout
  | otherFailure
  deriving DecidableEq

/-- Counters of `OnlineStatusTracker` touched by the dispatcher and the two
request processors.  Python integers are modelled as `Int` (they may go
negative); `time_of_last_rate_limit_error` is a monotonic-clock reading. -/
structure OnlineStatusTracker where
  num_tasks_started : Int := 0
  num_tasks_in_progress : Int := 0
  num_tasks_succeeded : Int := 0
  num_tasks_failed : Int := 0
  num_rate_limit_errors : Int := 0
  num_api_errors : Int := 0
  num_other_errors : Int := 0
  time_of_last_rate_limit_error : ℚ := 0
  deriving DecidableEq

/-- The mutable per-request state of `APIRequest`
(`base_online_request_processor.py`, lines 42-62): retry budget and the
accumulated error list, plus the stable identity of the owning generic
request. -/
structure APIRequest where
  task_id : Int
  original_row_idx : Int
  attempts_left : Int
  result : List ErrKind
  deriving DecidableEq

/-- A record appended to the response log, keeping precisely the fields the
claims are about: whether a response message is present (`none` encodes the
JSON `null` of permanent failures), the serialized error list, and the
`generic_request.original_row_idx` carried by the record. -/
structure GenericResponse where
  response_message : Option Unit
  response_errors : Option (List String)
  original_row_idx : Int
  deriving DecidableEq

/-- Events emitted by the dispatcher and the single-attempt lifecycle, in the
order the corresponding statements execute in
`base_online_request_processor.py`. -/
inductive Ev
  | waitCapacity
  | coolDown
  | consumeCapacity (estimate : Option _TokenCount)
  | launchTask
  | incStarted
  | acquireSem
  | incInProgress
  | httpCall
  | checkFinish
  | updateStats
  | validateFormat
  | freeCapacity (used : _TokenCount) (blocked : _TokenCount)
  | addMovingWindow
  | releaseSem
  | appendSuccess
  | appendFailure
  | enqueueRetry
  | decInProgress
  | incFailed
  | incSucceeded
  deriving DecidableEq

/-- Result of running one attempt (the body of `process_with_semaphore`
wrapping `handle_single_request_with_retries`): the tracker afterwards, the
request state afterwards, the records this attempt appended to the response
log, whether the request was put on the retry queue, whether the attempt
succeeded, and the event trace of the attempt. -/
structure HandleResult where
  tracker : OnlineStatusTracker
  req : APIRequest
  log : List GenericResponse
  queued : Bool
  succeeded : Bool
  events : List Ev
  deriving DecidableEq

/-- `call_single_request` of `online/openai_online_request_processor.py`
(lines 183-254): performs the post and decodes the body.  A body with an
`error` field increments `num_api_errors`; when the error message contains
"rate limit" it additionally records the time, increments
`num_rate_limit_errors`, decrements `num_api_errors` back, and decrements
`num_other_errors` (the comment in the source: because
`handle_single_request_with_retries` will double count otherwise); then the
exception is raised.  A non-200 status raises without touching counters.  A
read timeout propagates from the post itself. -/
def call_single_request (now : ℚ) (st : OnlineStatusTracker) :
    CallOutcome → OnlineStatusTracker × Except ErrKind (Int × Int × Bool × Bool)
  | CallOutcome.httpOk p c fi sok => (st, Except.ok (p, c, fi, sok))
  | CallOutcome.errorBody isRL =>
    let st1 := { st with num_api_errors := st.num_api_errors + 1 }
    if isRL then
      ({ st1 with
          time_of_last_rate_limit_error := now
          num_rate_limit_errors := st1.num_rate_limit_errors + 1
          num_api_errors := st1.num_api_errors - 1
          num_other_errors := st1.num_other_errors - 1 },
        Except.error ErrKind.rateLimit)
    else (st1, Except.error ErrKind.apiError)
  | CallOutcome.badStatus => (st, Except.error ErrKind.apiError)
  | CallOutcome.readTimeout => (st, Except.error ErrKind.readTimeout)
  | CallOutcome.otherFailure => (st, Except.error ErrKind.other)

/-- The `except` block of `handle_single_request_with_retries`
(`base_online_request_processor.py`, lines 495-527) followed by the `finally`
release: increment `num_other_errors`, append the error to the request's
result list; if attempts remain, decrement `attempts_left` (twice when the
exception class name contains "ReadTimeout") and enqueue on the retry queue;
otherwise append one permanent-failure record whose `response_message` is
null and whose `response_errors` are the accumulated errors as strings,
decrement `num_tasks_in_progress` and increment `num_tasks_failed`.
`preEvents` are the events of the try block up to the raise. -/
def except_branch (st : OnlineStatusTracker) (req : APIRequest) (e : ErrKind)
    (preEvents : List Ev) : HandleResult :=
  let st1 := { st with num_other_errors := st.num_other_errors + 1 }
  let req1 := { req with result := req.result ++ [e] }
  if 0 < req1.attempts_left then
    let req2 := { req1 with
      attempts_left :=
        if e = ErrKind.readTimeout then req1.attempts_left - 2
        else req1.attempts_left - 1 }
    ⟨st1, req2, [], true, false, preEvents ++ [Ev.enqueueRetry, Ev.releaseSem]⟩
  else
    let record : GenericResponse := ⟨none, some (req1.result.map errStr), req.original_row_idx⟩
    ⟨{ st1 with
        num_tasks_in_progress := st1.num_tasks_in_progress - 1
        num_tasks_failed := st1.num_tasks_failed + 1 },
      req1, [record], false, false,
      preEvents ++ [Ev.appendFailure, Ev.decInProgress, Ev.incFailed, Ev.releaseSem]⟩

/-- `handle_single_request_with_retries` (`base_online_request_processor.py`,
lines 437-540).  The try block: call, invalid-finish-reason check, stats
update, response-format validation, then `_free_capacity` with the actual
usage and the blocked capacity (performed only when a tokens-per-minute limit
is active, mirroring the guard in `_free_capacity`, lines 428-435).  On
success the `else` clause folds the completion tokens into the moving window,
the `finally` clause releases the outer semaphore, and only then is the
success record appended, `num_tasks_in_progress` decremented and
`num_tasks_succeeded` incremented. -/
def handle_single_request_with_retries (now : ℚ) (tpmActive : Bool)
    (blocked : _TokenCount) (st : OnlineStatusTracker) (req : APIRequest)
    (o : CallOutcome) : HandleResult :=
  match call_single_request now st o with
  | (st1, Except.error e) => except_branch st1 req e [Ev.httpCall]
  | (st1, Except.ok (p, c, finishInvalid, schemaOk)) =>
    if finishInvalid then
      except_branch st1 req ErrKind.invalidFinish [Ev.httpCall, Ev.checkFinish]
    else
      if !schemaOk then
        except_branch st1 req ErrKind.schemaMismatch
          [Ev.httpCall, Ev.checkFinish, Ev.updateStats, Ev.validateFormat]
      else
        let freeEvents :=
          if tpmActive then [Ev.freeCapacity ⟨p, c⟩ blocked] else []
        let record : GenericResponse := ⟨some (), none, req.original_row_idx⟩
        ⟨{ st1 with
            num_tasks_in_progress := st1.num_tasks_in_progress - 1
            num_tasks_succeeded := st1.num_tasks_succeeded + 1 },
          req, [record], false, true,
          [Ev.httpCall, Ev.checkFinish, Ev.updateStats, Ev.validateFormat]
            ++ freeEvents
            ++ [Ev.addMovingWindow, Ev.releaseSem, Ev.appendSuccess,
                Ev.decInProgress, Ev.incSucceeded]⟩

/-- `process_with_semaphore` (`base_online_request_processor.py`, lines
341-354): acquire the inner request semaphore, increment
`num_tasks_in_progress`, run the handler, and in the `finally` clause
decrement `num_tasks_in_progress` again. -/
def process_with_semaphore (now : ℚ) (tpmActive : Bool) (blocked : _TokenCount)
    (st : OnlineStatusTracker) (req : APIRequest) (o : CallOutcome) : HandleResult :=
  let st0 := { st with num_tasks_in_progress := st.num_tasks_in_progress + 1 }
  let h := handle_single_request_with_retries now tpmActive blocked st0 req o
  { h with
    tracker := { h.tracker with
      num_tasks_in_progress := h.tracker.num_tasks_in_progress - 1 }
    events := Ev.acquireSem :: Ev.incInProgress :: h.events ++ [Ev.decInProgress] }

/-- Classification of the error an attempt with outcome `o` raises, `none`
when the attempt succeeds.  Derived from the branch structure of
`call_single_request` and the handler's finish-reason and format checks. -/
def attempt_error : CallOutcome → Option ErrKind
  | CallOutcome.httpOk _ _ finishInvalid schemaOk =>
    if finishInvalid then some ErrKind.invalidFinish
    else if !schemaOk then some ErrKind.schemaMismatch
    else none
  | CallOutcome.errorBody isRL =>
    if isRL then some ErrKind.rateLimit else some ErrKind.apiError
  | CallOutcome.badStatus => some ErrKind.apiError
  | CallOutcome.readTimeout => some ErrKind.readTimeout
  | CallOutcome.otherFailure => some ErrKind.other

/-- The provider-reported actual usage carried by a successful outcome. -/
def reported_usage : CallOutcome → _TokenCount
  | CallOutcome.httpOk p c _ _ => ⟨p, c⟩
  | _ => ⟨0, 0⟩

/-- How a single request's lifecycle ends. -/
inductive Terminal
  | success
  | permanentFailure
  | scriptExhausted
  deriving DecidableEq

/-- Aggregate result of driving one request through repeated attempts. -/
structure RunResult where
  tracker : OnlineStatusTracker
  req : APIRequest
  log : List GenericResponse
  attempts : Nat
  terminal : Terminal
  deriving DecidableEq

/-- One request driven to completion by the dispatcher: each list element is
the outcome of one HTTP attempt; an attempt whose request is re-enqueued is
followed by a retry-loop attempt on the next outcome
(`base_online_request_processor.py`, first-pass loop lines 305-373 and the
retry-drain loop lines 376-417). -/
def runRequest (now : ℚ) (tpm : Bool) (blocked : _TokenCount)
    (st : OnlineStatusTracker) (req : APIRequest) : List CallOutcome → RunResult
  | [] => ⟨st, req, [], 0, Terminal.scriptExhausted⟩
  | o :: rest =>
    let h := process_with_semaphore now tpm blocked st req o
    if h.queued then
      let r := runRequest now tpm blocked h.tracker h.req rest
      ⟨r.tracker, r.req, h.log ++ r.log, r.attempts + 1, r.terminal⟩
    else
      ⟨h.tracker, h.req, h.log, 1,
        if h.succeeded then Terminal.success else Terminal.permanentFailure⟩

/-- The admission sequence of the first-pass loop for one request
(`base_online_request_processor.py`, lines 329-360): poll `has_capacity`,
cool down after a rate-limit error, `consume_capacity(token_estimate)`,
`asyncio.create_task`, then `num_tasks_started += 1`. -/
def first_pass_admission_events (est : Option _TokenCount) : List Ev :=
  [Ev.waitCapacity, Ev.coolDown, Ev.consumeCapacity est, Ev.launchTask, Ev.incStarted]

/-- The admission sequence of the retry-drain loop for one request
(`base_online_request_processor.py`, lines 380-409): poll `has_capacity`,
`consume_capacity(token_estimate)`, then `asyncio.create_task`.  Note the
absence of any cool-down step: the retry loop never calls
`cool_down_if_rate_limit_error`. -/
def retry_admission_events (est : Option _TokenCount) : List Ev :=
  [Ev.waitCapacity, Ev.consumeCapacity est, Ev.launchTask]

/-- Full trace of one admitted request: the admission events followed by the
attempt's events (the created task body runs only after `create_task`
returns, the event loop being cooperative). -/
def request_events (adm : List Ev) (h : HandleResult) : List Ev := adm ++ h.events

/-- `a` occurs strictly before `b` in the list `l`. -/
def occursBefore (a b : Ev) (l : List Ev) : Prop :=
  ∃ l1 l2 l3, l = l1 ++ a :: l2 ++ b :: l3

/-- `cool_down_if_rate_limit_error` (`base_online_request_processor.py`,
lines 242-259): sleep for the remaining part of the pause window, if any. -/
def cool_down_sleep (seconds_to_pause now tLast : ℚ) : ℚ :=
  let seconds_since_rate_limit_error := now - tLast
  let remaining := seconds_to_pause - seconds_since_rate_limit_error
  if 0 < remaining then remaining else 0

/-- The earliest time at which the first-pass loop can proceed past the
cool-down check entered at time `now` (line 334). -/
def first_pass_post_cooldown_time (seconds_to_pause now tLast : ℚ) : ℚ :=
  now + cool_down_sleep seconds_to_pause now tLast

/-- The time at which the retry-drain loop proceeds to consume capacity and
launch a retry attempt entered at time `now` (lines 380-409): the loop
performs no cool-down, so no delay is added. -/
def retry_post_admission_time (seconds_to_pause now tLast : ℚ) : ℚ := now

/-- Error-counter effect of a rate-limit-classified (`isRateLimit = true`) or
plain API error in the legacy `process_single_request`
(`src/bespokelabs/curator/request_processor/openai_online_request_processor.py`,
lines 261-268 inside the try block, followed by `num_other_errors += 1` at
line 306 in the except block). -/
def legacy_error_counters (now : ℚ) (st : OnlineStatusTracker)
    (isRateLimit : Bool) : OnlineStatusTracker :=
  let st1 := { st with num_api_errors := st.num_api_errors + 1 }
  let st2 :=
    if isRateLimit then
      { st1 with
        time_of_last_rate_limit_error := now
        num_rate_limit_errors := st1.num_rate_limit_errors + 1
        num_api_errors := st1.num_api_errors - 1 }
    else st1
  { st2 with num_other_errors := st2.num_other_errors + 1 }

/-- Lifecycle phase of one input record in a run: not yet admitted by the
first-pass loop, admitted with attempts ongoing (possibly sitting in the
retry queue), or terminal. -/
inductive Phase
  | idle
  | inflight
  | doneSucc
  | doneFail
  deriving DecidableEq

/-- Counter state of a run: per-record phases plus the three counters the
claim is about.  The counters are separate fields, exactly like the separate
tracker attributes the code mutates. -/
structure SchedState where
  phases : List Phase
  num_tasks_started : Nat
  num_tasks_succeeded : Nat
  num_tasks_failed : Nat

/-- Atomic counter transitions of `process_requests_from_file`, one
constructor per await-free block of the source that touches these counters:
`launch` is lines 356-360 (`create_task` then `num_tasks_started += 1`, with
no suspension point between them); `requeue` is a transient failure
(`retry_queue.put_nowait`, line 509, no counter change); `finishSucc` is line
540 and `finishFail` line 526, each reachable only while the request is
inflight and each reached exactly once per request. -/
inductive SchedStep : SchedState → SchedState → Prop
  | launch (s : SchedState) (i : Nat) (hi : i < s.phases.length)
      (h : s.phases.get ⟨i, hi⟩ = Phase.idle) :
      SchedStep s ⟨s.phases.set i Phase.inflight, s.num_tasks_started + 1,
        s.num_tasks_succeeded, s.num_tasks_failed⟩
  | requeue (s : SchedState) (i : Nat) (hi : i < s.phases.length)
      (h : s.phases.get ⟨i, hi⟩ = Phase.inflight) : SchedStep s s
  | finishSucc (s : SchedState) (i : Nat) (hi : i < s.phases.length)
      (h : s.phases.get ⟨i, hi⟩ = Phase.inflight) :
      SchedStep s ⟨s.phases.set i Phase.doneSucc, s.num_tasks_started,
        s.num_tasks_succeeded + 1, s.num_tasks_failed⟩
  | finishFail (s : SchedState) (i : Nat) (hi : i < s.phases.length)
      (h : s.phases.get ⟨i, hi⟩ = Phase.inflight) :
      SchedStep s ⟨s.phases.set i Phase.doneFail, s.num_tasks_started,
        s.num_tasks_succeeded, s.num_tasks_failed + 1⟩

/-- Initial state of a run over `n` input records: all counters zero. -/
def schedInit (n : Nat) : SchedState := ⟨List.replicate n Phase.idle, 0, 0, 0⟩

/-- States reachable during a run, over every cooperative interleaving. -/
inductive SchedReach : SchedState → Prop
  | init (n : Nat) : SchedReach (schedInit n)
  | step {s s' : SchedState} : SchedReach s → SchedStep s s' → SchedReach s'

/-- A record counts as started once it is no longer idle. -/
def phaseStarted : Phase → Bool
  | Phase.idle => false
  | _ => true

/-- A record counted in `num_tasks_succeeded`. -/
def phaseSucc : Phase → Bool
  | Phase.doneSucc => true
  | _ => false

/-- A record counted in `num_tasks_failed`. -/
def phaseFail : Phase → Bool
  | Phase.doneFail => true
  | _ => false

/-- Inductive invariant tying the counter fields to the phases. -/
def schedInv (s : SchedState) : Prop :=
  s.num_tasks_started = s.phases.countP phaseStarted ∧
  s.num_tasks_succeeded = s.phases.countP phaseSucc ∧
  s.num_tasks_failed = s.phases.countP phaseFail

/-- Modelled from the spec: `validate_existing_response_file` (called at line
284 of `base_online_request_processor.py` but defined in the base request
processor, which is not part of the sources) scans the pre-existing response
log and collects the `generic_request.original_row_idx` of every record. -/
def resume_ids (log : List GenericResponse) : Finset Int :=
  (log.map (fun r => r.original_row_idx)).toFinset

/-- The row indices the first-pass loop launches attempts for: lines 309-314
skip (releasing the outer semaphore, creating no `APIRequest`, launching no
task) every line whose `original_row_idx` is in `completed_request_ids`. -/
def launched_ids (inputs : List Int) (completed : Finset Int) : List Int :=
  inputs.filter (fun i => decide (i ∉ completed))

/-- The set of `original_row_idx` present in the response file after the run:
the pre-existing records plus one record per launched request (each launched
request writes exactly one terminal record carrying its own index). -/
def final_ids (inputs : List Int) (completed : Finset Int) : Finset Int :=
  completed ∪ (launched_ids inputs completed).toFinset

/-- One iteration of the first-pass loop as seen by the `pending_requests`
set (`base_online_request_processor.py`, lines 356-369): a new task is added;
if the size has reached `max_concurrent * 3` the loop blocks on
`asyncio.wait(..., return_when=FIRST_COMPLETED)`, which returns only once at
least one task is done, and the done tasks (`d + 1` of them, `d ≥ 0` extra)
are removed from the pending set. -/
def first_pass_backpressure (max_concurrent pending d : Nat) : Nat :=
  let p := pending + 1
  if 3 * max_concurrent ≤ p then p - (d + 1) else p

/-- Size of the pending set after the loop has processed one line per element
of `ds`, starting from an empty pending set; `ds` lists how many extra tasks
beyond the guaranteed one completed during each wait. -/
def pending_after (max_concurrent : Nat) (ds : List Nat) : Nat :=
  ds.foldl (fun p d => first_pass_backpressure max_concurrent p d) 0

/-- `_MAX_OUTPUT_MVA_WINDOW` (`base_online_request_processor.py`, line 39). -/
def _MAX_OUTPUT_MVA_WINDOW : Nat := 50

/-- `_add_output_token_moving_window` (line 542-543): appending to a
`deque(maxlen=_MAX_OUTPUT_MVA_WINDOW)` keeps the most recent 50 entries,
discarding from the left. -/
def _add_output_token_moving_window (w : List Nat) (tokens : Nat) : List Nat :=
  let w2 := w ++ [tokens]
  w2.drop (w2.length - _MAX_OUTPUT_MVA_WINDOW)

/-- The window contents after observing the completion-token values `xs` in
order, starting from the empty deque created in `__init__` (line 97). -/
def _output_tokens_window (xs : List Nat) : List Nat :=
  xs.foldl _add_output_token_moving_window []

/-- The denominator `len(self._output_tokens_window) or _MAX_OUTPUT_MVA_WINDOW`
of `_output_tokens_moving_average` (lines 545-548): Python's `or` yields the
fixed window size when the length is zero. -/
def _mva_denominator (w : List Nat) : ℚ :=
  if w.length = 0 then (_MAX_OUTPUT_MVA_WINDOW : ℚ) else (w.length : ℚ)

/-- `_output_tokens_moving_average` (lines 545-548). -/
def _output_tokens_moving_average (w : List Nat) : ℚ :=
  ((w.map (fun n => (n : ℚ))).sum) / _mva_denominator w

/-- C2 (amended): after a rate-limit error observed at time `tLast`, the
first-pass loop, entering the cool-down check at any time `now`, proceeds to
consume capacity and launch the attempt no earlier than
`tLast + seconds_to_pause_on_rate_limit`; retries are not subject to the
cool-down (see the counterexample). -/
theorem claim2_first_pass_cooldown (seconds_to_pause now tLast : ℚ) :
    tLast + seconds_to_pause ≤ first_pass_post_cooldown_time seconds_to_pause now tLast := by
  unfold first_pass_post_cooldown_time cool_down_sleep
  dsimp only
  split <;> linarith

/-- C2 counterexample: with `seconds_to_pause_on_rate_limit = 5` and a
rate-limit error at time `0`, a retry admitted by the retry-drain loop at
time `1` initiates its HTTP call at time `1 < 0 + 5`: the retry loop performs
no cool-down step at all. -/
theorem claim2_counterexample :
    retry_post_admission_time 5 1 0 < 0 + 5 ∧
    Ev.coolDown ∉ retry_admission_events none := by
  constructor
  · norm_num [retry_post_admission_time]
  · decide

/-- C3: a failed attempt, while attempts remain, decrements `attempts_left`
exactly twice when the error is a read timeout and exactly once for every
other transient error. -/
theorem claim3_timeout_costs_two_attempts (now : ℚ) (tpm : Bool)
    (blocked : _TokenCount) (st : OnlineStatusTracker) (req : APIRequest)
    (hq : 0 < req.attempts_left) :
    (process_with_semaphore now tpm blocked st req CallOutcome.readTimeout).req.attempts_left
        = req.attempts_left - 2 ∧
    ∀ (o : CallOutcome) (e : ErrKind), attempt_error o = some e →
      e ≠ ErrKind.readTimeout →
      (process_with_semaphore now tpm blocked st req o).req.attempts_left
          = req.attempts_left - 1 := by
  constructor
  · simp [process_with_semaphore, handle_single_request_with_retries,
      call_single_request, except_branch, hq]
  · intro o e he hne
    cases o with
    | httpOk p c fi sok =>
      cases fi <;> cases sok <;> simp [attempt_error] at he <;>
        simp [process_with_semaphore, handle_single_request_with_retries,
          call_single_request, except_branch, hq, ← he]
    | errorBody isRL =>
      cases isRL <;> simp [attempt_error] at he <;>
        simp [process_with_semaphore, handle_single_request_with_retries,
          call_single_request, except_branch, hq, ← he]
    | badStatus =>
      simp [attempt_error] at he
      simp [process_with_semaphore, handle_single_request_with_retries,
        call_single_request, except_branch, hq, ← he]
    | readTimeout =>
      simp [attempt_error] at he
      rw [← he] at hne
      simp at hne
    | otherFailure =>
      simp [attempt_error] at he
      simp [process_with_semaphore, handle_single_request_with_retries,
        call_single_request, except_branch, hq, ← he]

/-- C3 witness. -/
theorem claim3_witness :
    (0 : Int) < 1 ∧
      ((process_with_semaphore 0 false ⟨0, 0⟩ ⟨0, 0, 0, 0, 0, 0, 0, 0⟩
          ⟨0, 0, 1, []⟩ CallOutcome.readTimeout).req.attempts_left = 1 - 2 ∧
        ∀ (o : CallOutcome) (e : ErrKind), attempt_error o = some e →
          e ≠ ErrKind.readTimeout →
          (process_with_semaphore 0 false ⟨0, 0⟩ ⟨0, 0, 0, 0, 0, 0, 0, 0⟩
              ⟨0, 0, 1, []⟩ o).req.attempts_left = 1 - 1) :=
  ⟨by decide,
    claim3_timeout_costs_two_attempts 0 false ⟨0, 0⟩ ⟨0, 0, 0, 0, 0, 0, 0, 0⟩
      ⟨0, 0, 1, []⟩ (by decide)⟩

/-- C4: in the current processor a rate-limit-classified error has net effect
`num_rate_limit_errors + 1` with `num_api_errors` and `num_other_errors`
unchanged, while in the legacy `process_single_request` the same error also
leaves `num_other_errors` incremented by one, overlapping the buckets. -/
theorem claim4_rate_limit_bucket_accounting (now : ℚ) (tpm : Bool)
    (blocked : _TokenCount) (st : OnlineStatusTracker) (req : APIRequest) :
    ((process_with_semaphore now tpm blocked st req
        (CallOutcome.errorBody true)).tracker.num_rate_limit_errors
        = st.num_rate_limit_errors + 1 ∧
      (process_with_semaphore now tpm blocked st req
        (CallOutcome.errorBody true)).tracker.num_api_errors = st.num_api_errors ∧
      (process_with_semaphore now tpm blocked st req
        (CallOutcome.errorBody true)).tracker.num_other_errors = st.num_other_errors) ∧
    ((legacy_error_counters now st true).num_rate_limit_errors
        = st.num_rate_limit_errors + 1 ∧
      (legacy_error_counters now st true).num_api_errors = st.num_api_errors ∧
      (legacy_error_counters now st true).num_other_errors = st.num_other_errors + 1) := by
  refine ⟨⟨?_, ?_, ?_⟩, ⟨?_, ?_, ?_⟩⟩ <;>
    simp [process_with_semaphore, handle_single_request_with_retries,
      call_single_request, except_branch, legacy_error_counters] <;>
    split <;> simp

/-- C6 (code bug): for a request whose attempt succeeds, the counter updates
happen in the claimed order but `num_tasks_in_progress` is decremented twice,
once at the end of `handle_single_request_with_retries` and once more in the
`finally` clause of `process_with_semaphore`, leaving the counter one below
its starting value. -/
theorem claim6_in_progress_double_decrement (now : ℚ) (tpm : Bool)
    (blocked : _TokenCount) (st : OnlineStatusTracker) (req : APIRequest)
    (p c : Int) :
    (process_with_semaphore now tpm blocked st req
        (CallOutcome.httpOk p c false true)).tracker.num_tasks_in_progress
        = st.num_tasks_in_progress - 1 ∧
    ((process_with_semaphore now tpm blocked st req
        (CallOutcome.httpOk p c false true)).events.countP
          (fun e => decide (e = Ev.decInProgress))) = 2 ∧
    ((process_with_semaphore now tpm blocked st req
        (CallOutcome.httpOk p c false true)).events.countP
          (fun e => decide (e = Ev.incInProgress))) = 1 ∧
    (process_with_semaphore now tpm blocked st req
        (CallOutcome.httpOk p c false true)).tracker.num_tasks_succeeded
        = st.num_tasks_succeeded + 1 := by
  refine ⟨?_, ?_, ?_, ?_⟩ <;>
    cases tpm <;>
      simp [process_with_semaphore, handle_single_request_with_retries,
        call_single_request, List.countP_cons, List.countP_append]

/-- Folding observations into the bounded window keeps exactly the last 50
of all values seen so far. -/
theorem foldl_window_eq (xs : List Nat) : ∀ w : List Nat, w.length ≤ 50 →
    xs.foldl _add_output_token_moving_window w
      = (w ++ xs).drop ((w ++ xs).length - 50) := by
  induction xs with
  | nil =>
    intro w hw
    rw [List.foldl_nil, List.append_nil]
    have h0 : w.length - 50 = 0 := by omega
    rw [h0, List.drop_zero]
  | cons x xs ih =>
    intro w hw
    rw [List.foldl_cons]
    have hlen : (_add_output_token_moving_window w x).length ≤ 50 := by
      simp [_add_output_token_moving_window, _MAX_OUTPUT_MVA_WINDOW]
      omega
    rw [ih _ hlen]
    unfold _add_output_token_moving_window _MAX_OUTPUT_MVA_WINDOW
    dsimp only
    rw [← List.drop_append_of_le_length (by simp; omega), List.drop_drop]
    congr 1
    · simp
      omega
    · simp

/-- C10: the output-token moving average is computed over a window holding at
most the last 50 observed completion-token values; its denominator is never
zero, and on the empty window it is the zero sum divided by the fixed window
size 50, which is 0. -/
theorem claim10_moving_average_window (xs : List Nat) :
    _output_tokens_window xs = xs.drop (xs.length - 50) ∧
    (_output_tokens_window xs).length ≤ 50 ∧
    (∀ w : List Nat, _mva_denominator w ≠ 0) ∧
    _mva_denominator [] = 50 ∧
    _output_tokens_moving_average [] = 0 := by
  have hwin : _output_tokens_window xs = xs.drop (xs.length - 50) := by
    have h := foldl_window_eq xs [] (by simp)
    simpa [_output_tokens_window] using h
  refine ⟨hwin, ?_, ?_, ?_, ?_⟩
  · rw [hwin]
    simp
    omega
  · intro w
    unfold _mva_denominator _MAX_OUTPUT_MVA_WINDOW
    split
    · norm_num
    · next h =>
      exact_mod_cast h
  · simp [_mva_denominator, _MAX_OUTPUT_MVA_WINDOW]
  · simp [_output_tokens_moving_average]

/-- One first-pass iteration preserves the backpressure bound on the pending
set. -/
theorem backpressure_step_bound (mc p d : Nat) (h1 : 1 ≤ mc)
    (hp : p + 1 ≤ 3 * mc) : first_pass_backpressure mc p d + 1 ≤ 3 * mc := by
  unfold first_pass_backpressure
  dsimp only
  split <;> omega

/-- Folding first-pass iterations from any in-bound pending size stays in
bound. -/
theorem pending_after_bound (mc : Nat) (h1 : 1 ≤ mc) (ds : List Nat) :
    ∀ p, p + 1 ≤ 3 * mc →
      ds.foldl (fun p d => first_pass_backpressure mc p d) p + 1 ≤ 3 * mc := by
  induction ds with
  | nil =>
    intro p hp
    simpa using hp
  | cons d ds ih =>
    intro p hp
    rw [List.foldl_cons]
    exact ih _ (backpressure_step_bound mc p d h1 hp)

/-- C9: starting from an empty pending set, the number of live first-pass
tasks never exceeds `3 * max_batch`: after every iteration the pending size
is strictly below the bound, the momentary peak after adding a task is at
most the bound, and whenever the peak reaches the bound the loop blocks until
at least one task completes, strictly shrinking the pending set before the
next line is read. -/
theorem claim9_backpressure (mc : Nat) (h1 : 1 ≤ mc) (ds : List Nat) :
    pending_after mc ds + 1 ≤ 3 * mc ∧
    ∀ p d : Nat, p + 1 ≤ 3 * mc →
      (p + 1 ≤ 3 * mc ∧
        first_pass_backpressure mc p d + 1 ≤ 3 * mc ∧
        (p + 1 = 3 * mc → first_pass_backpressure mc p d < p + 1)) := by
  constructor
  · exact pending_after_bound mc h1 ds 0 (by omega)
  · intro p d hp
    refine ⟨hp, backpressure_step_bound mc p d h1 hp, ?_⟩
    intro hpeak
    unfold first_pass_backpressure
    dsimp only
    split <;> omega

/-- C9 witness. -/
theorem claim9_witness :
    1 ≤ 1 ∧
      (pending_after 1 [0, 2, 0] + 1 ≤ 3 * 1 ∧
        ∀ p d : Nat, p + 1 ≤ 3 * 1 →
          (p + 1 ≤ 3 * 1 ∧
            first_pass_backpressure 1 p d + 1 ≤ 3 * 1 ∧
            (p + 1 = 3 * 1 → first_pass_backpressure 1 p d < p + 1))) :=
  ⟨by decide, claim9_backpressure 1 (by decide) [0, 2, 0]⟩

/-- Facts about one attempt: the request identity is preserved; a re-enqueued
attempt happened with attempts remaining, consumed at least one attempt,
appended one error and no log record, and left `num_tasks_failed` unchanged;
a terminal failed attempt appended exactly the permanent-failure record and
incremented `num_tasks_failed`; a successful attempt appended exactly the
success record and left the request state untouched. -/
theorem process_with_semaphore_facts (now : ℚ) (tpm : Bool)
    (blocked : _TokenCount) (st : OnlineStatusTracker) (req : APIRequest)
    (o : CallOutcome) :
    (process_with_semaphore now tpm blocked st req o).req.original_row_idx
        = req.original_row_idx ∧
    ((process_with_semaphore now tpm blocked st req o).queued = true →
      0 < req.attempts_left ∧
      (process_with_semaphore now tpm blocked st req o).req.attempts_left
          ≤ req.attempts_left - 1 ∧
      (process_with_semaphore now tpm blocked st req o).req.result.length
          = req.result.length + 1 ∧
      (process_with_semaphore now tpm blocked st req o).log = [] ∧
      (process_with_semaphore now tpm blocked st req o).tracker.num_tasks_failed
          = st.num_tasks_failed ∧
      (process_with_semaphore now tpm blocked st req o).succeeded = false) ∧
    ((process_with_semaphore now tpm blocked st req o).queued = false →
      (process_with_semaphore now tpm blocked st req o).succeeded = false →
      (process_with_semaphore now tpm blocked st req o).log
          = [⟨none,
              some (((process_with_semaphore now tpm blocked st req o).req.result).map errStr),
              req.original_row_idx⟩] ∧
      (process_with_semaphore now tpm blocked st req o).tracker.num_tasks_failed
          = st.num_tasks_failed + 1 ∧
      (process_with_semaphore now tpm blocked st req o).req.result.length
          = req.result.length + 1) ∧
    ((process_with_semaphore now tpm blocked st req o).succeeded = true →
      (process_with_semaphore now tpm blocked st req o).queued = false ∧
      (process_with_semaphore now tpm blocked st req o).log
          = [⟨some (), none, req.original_row_idx⟩] ∧
      (process_with_semaphore now tpm blocked st req o).tracker.num_tasks_failed
          = st.num_tasks_failed ∧
      (process_with_semaphore now tpm blocked st req o).req = req) := by
  by_cases ha : 0 < req.attempts_left <;>
    cases o with
    | httpOk p c fi sok =>
      cases fi <;> cases sok <;> cases tpm <;>
        simp [process_with_semaphore, handle_single_request_with_retries,
          call_single_request, except_branch, ha] <;>
        (try split) <;> omega
    | errorBody isRL =>
      cases isRL <;>
        simp [process_with_semaphore, handle_single_request_with_retries,
          call_single_request, except_branch, ha] <;>
        (try split) <;> omega
    | badStatus =>
      simp [process_with_semaphore, handle_single_request_with_retries,
        call_single_request, except_branch, ha] <;>
      (try split) <;> omega
    | readTimeout =>
      simp [process_with_semaphore, handle_single_request_with_retries,
        call_single_request, except_branch, ha] <;>
      (try split) <;> omega
    | otherFailure =>
      simp [process_with_semaphore, handle_single_request_with_retries,
        call_single_request, except_branch, ha] <;>
      (try split) <;> omega

/-- Induction over a request's lifecycle: the number of attempts is bounded
by the remaining retry budget plus one; a lifecycle ending in permanent
failure wrote exactly one record, with null message, the accumulated errors
as strings and the request's row index, and incremented `num_tasks_failed`
exactly once; every record written carries the request's row index. -/
theorem runRequest_spec (now : ℚ) (tpm : Bool) (blocked : _TokenCount)
    (outs : List CallOutcome) :
    ∀ (st : OnlineStatusTracker) (req : APIRequest),
      ((runRequest now tpm blocked st req outs).attempts
          ≤ req.attempts_left.toNat + 1) ∧
      ((runRequest now tpm blocked st req outs).terminal = Terminal.permanentFailure →
        (runRequest now tpm blocked st req outs).log
            = [⟨none,
                some (((runRequest now tpm blocked st req outs).req.result).map errStr),
                req.original_row_idx⟩] ∧
        (runRequest now tpm blocked st req outs).tracker.num_tasks_failed
            = st.num_tasks_failed + 1 ∧
        (runRequest now tpm blocked st req outs).req.result.length
            = req.result.length + (runRequest now tpm blocked st req outs).attempts) ∧
      (∀ r ∈ (runRequest now tpm blocked st req outs).log,
        r.original_row_idx = req.original_row_idx) := by
  induction outs with
  | nil =>
    intro st req
    refine ⟨by simp [runRequest], ?_, by simp [runRequest]⟩
    intro ht
    simp [runRequest] at ht
  | cons o rest ih =>
    intro st req
    obtain ⟨hidx, hque, hfail, hsucc⟩ := process_with_semaphore_facts now tpm blocked st req o
    cases hq : (process_with_semaphore now tpm blocked st req o).queued with
    | true =>
      obtain ⟨ha, hle, hlen, hlog, hnf, hns⟩ := hque hq
      obtain ⟨ih1, ih2, ih3⟩ :=
        ih (process_with_semaphore now tpm blocked st req o).tracker
          (process_with_semaphore now tpm blocked st req o).req
      refine ⟨?_, ?_, ?_⟩
      · simp only [runRequest, hq, if_true]
        omega
      · intro ht
        simp only [runRequest, hq, if_true] at ht ⊢
        obtain ⟨h1, h2, h3⟩ := ih2 ht
        refine ⟨?_, ?_, ?_⟩
        · rw [hlog, List.nil_append, h1, hidx]
        · rw [h2, hnf]
        · omega
      · intro r hr
        simp only [runRequest, hq, if_true] at hr
        rw [hlog, List.nil_append] at hr
        exact (ih3 r hr).trans hidx
    | false =>
      cases hs : (process_with_semaphore now tpm blocked st req o).succeeded with
      | true =>
        obtain ⟨hq0, hlog, hnf, hreq⟩ := hsucc hs
        refine ⟨?_, ?_, ?_⟩
        · simp only [runRequest, hq, Bool.false_eq_true, if_false]
          omega
        · intro ht
          simp only [runRequest, hq, hs, Bool.false_eq_true, if_false, if_true] at ht
          exact absurd ht (by simp)
        · intro r hr
          simp only [runRequest, hq, Bool.false_eq_true, if_false] at hr
          rw [hlog] at hr
          simp at hr
          rw [hr]
      | false =>
        obtain ⟨hlog, hnf, hlen⟩ := hfail hq hs
        refine ⟨?_, ?_, ?_⟩
        · simp only [runRequest, hq, Bool.false_eq_true, if_false]
          omega
        · intro ht
          simp only [runRequest, hq, hs, Bool.false_eq_true, if_false] at ht ⊢
          exact ⟨hlog, hnf, by omega⟩
        · intro r hr
          simp only [runRequest, hq, Bool.false_eq_true, if_false] at hr
          rw [hlog] at hr
          simp at hr
          rw [hr]
/-- C5: a record admitted with `attempts_left = max_retries` is attempted at
most `max_retries + 1` times, and when its attempts are exhausted it produces
exactly one permanent-failure log record whose `response_message` is null and
whose `response_errors` are its accumulated errors serialized as strings (one
per failed attempt), with `num_tasks_failed` incremented exactly once. -/
theorem claim5_retry_budget (now : ℚ) (tpm : Bool) (blocked : _TokenCount)
    (st : OnlineStatusTracker) (tid idx maxRetries : Int)
    (outs : List CallOutcome) (h0 : 0 ≤ maxRetries) :
    ((runRequest now tpm blocked st ⟨tid, idx, maxRetries, []⟩ outs).attempts : Int)
        ≤ maxRetries + 1 ∧
    ((runRequest now tpm blocked st ⟨tid, idx, maxRetries, []⟩ outs).terminal
        = Terminal.permanentFailure →
      (runRequest now tpm blocked st ⟨tid, idx, maxRetries, []⟩ outs).log
          = [⟨none,
              some (((runRequest now tpm blocked st ⟨tid, idx, maxRetries, []⟩ outs).req.result).map errStr),
              idx⟩] ∧
      (runRequest now tpm blocked st ⟨tid, idx, maxRetries, []⟩ outs).tracker.num_tasks_failed
          = st.num_tasks_failed + 1 ∧
      (runRequest now tpm blocked st ⟨tid, idx, maxRetries, []⟩ outs).req.result.length
          = (runRequest now tpm blocked st ⟨tid, idx, maxRetries, []⟩ outs).attempts) := by
  obtain ⟨h1, h2, h3⟩ := runRequest_spec now tpm blocked outs st ⟨tid, idx, maxRetries, []⟩
  dsimp only at h1
  constructor
  · omega
  · intro ht
    obtain ⟨hl, hf, hn⟩ := h2 ht
    exact ⟨hl, hf, by simpa using hn⟩

/-- C5 witness: one retry budget, two failed outcomes, permanent failure with
two serialized errors. -/
theorem claim5_witness :
    (0 : Int) ≤ 1 ∧
      (((runRequest 0 false ⟨0, 0⟩ ⟨0, 0, 0, 0, 0, 0, 0, 0⟩ ⟨0, 7, 1, []⟩
            [CallOutcome.otherFailure, CallOutcome.badStatus]).attempts : Int) ≤ 1 + 1 ∧
        ((runRequest 0 false ⟨0, 0⟩ ⟨0, 0, 0, 0, 0, 0, 0, 0⟩ ⟨0, 7, 1, []⟩
              [CallOutcome.otherFailure, CallOutcome.badStatus]).terminal
            = Terminal.permanentFailure →
          (runRequest 0 false ⟨0, 0⟩ ⟨0, 0, 0, 0, 0, 0, 0, 0⟩ ⟨0, 7, 1, []⟩
              [CallOutcome.otherFailure, CallOutcome.badStatus]).log
              = [⟨none,
                  some (((runRequest 0 false ⟨0, 0⟩ ⟨0, 0, 0, 0, 0, 0, 0, 0⟩ ⟨0, 7, 1, []⟩
                      [CallOutcome.otherFailure, CallOutcome.badStatus]).req.result).map errStr),
                  7⟩] ∧
          (runRequest 0 false ⟨0, 0⟩ ⟨0, 0, 0, 0, 0, 0, 0, 0⟩ ⟨0, 7, 1, []⟩
              [CallOutcome.otherFailure, CallOutcome.badStatus]).tracker.num_tasks_failed
              = (0 : Int) + 1 ∧
          (runRequest 0 false ⟨0, 0⟩ ⟨0, 0, 0, 0, 0, 0, 0, 0⟩ ⟨0, 7, 1, []⟩
              [CallOutcome.otherFailure, CallOutcome.badStatus]).req.result.length
              = (runRequest 0 false ⟨0, 0⟩ ⟨0, 0, 0, 0, 0, 0, 0, 0⟩ ⟨0, 7, 1, []⟩
                  [CallOutcome.otherFailure, CallOutcome.badStatus]).attempts)) :=
  ⟨by decide,
    claim5_retry_budget 0 false ⟨0, 0⟩ ⟨0, 0, 0, 0, 0, 0, 0, 0⟩ 0 7 1
      [CallOutcome.otherFailure, CallOutcome.badStatus] (by decide)⟩

/-- C8: a restarted run skips every input whose `original_row_idx` is in the
pre-existing response file (launching no attempt for it and writing no
duplicate), every record a launched request writes carries its own row index,
and the final set of row indices in the output equals that of a single
uninterrupted run. -/
theorem claim8_resume (inputs : List Int) (completed : Finset Int)
    (hsub : completed ⊆ inputs.toFinset) :
    final_ids inputs completed = final_ids inputs ∅ ∧
    (∀ i ∈ completed, i ∉ launched_ids inputs completed) ∧
    launched_ids inputs ∅ = inputs ∧
    (∀ (now : ℚ) (tpm : Bool) (blocked : _TokenCount) (st : OnlineStatusTracker)
        (req : APIRequest) (outs : List CallOutcome),
      ∀ r ∈ (runRequest now tpm blocked st req outs).log,
        r.original_row_idx = req.original_row_idx) := by
  refine ⟨?_, ?_, ?_, ?_⟩
  · ext i
    simp only [final_ids, launched_ids, Finset.mem_union, List.mem_toFinset,
      List.mem_filter, Finset.not_mem_empty, false_or, decide_eq_true_eq,
      Finset.empty_union]
    constructor
    · rintro (hc | ⟨hi, _⟩)
      · constructor
        · exact List.mem_toFinset.mp (hsub hc)
        · simp
      · exact ⟨hi, by simp⟩
    · rintro ⟨hi, _⟩
      by_cases hc : i ∈ completed
      · exact Or.inl hc
      · exact Or.inr ⟨hi, hc⟩
  · intro i hi
    simp [launched_ids, hi]
  · simp [launched_ids]
  · intro now tpm blocked st req outs r hr
    exact (runRequest_spec now tpm blocked outs st req).2.2 r hr

/-- C8 witness. -/
theorem claim8_witness :
    ({1} : Finset Int) ⊆ ([0, 1, 2] : List Int).toFinset ∧
      (final_ids [0, 1, 2] {1} = final_ids [0, 1, 2] ∅ ∧
        (∀ i ∈ ({1} : Finset Int), i ∉ launched_ids [0, 1, 2] {1}) ∧
        launched_ids [0, 1, 2] ∅ = [0, 1, 2] ∧
        (∀ (now : ℚ) (tpm : Bool) (blocked : _TokenCount) (st : OnlineStatusTracker)
            (req : APIRequest) (outs : List CallOutcome),
          ∀ r ∈ (runRequest now tpm blocked st req outs).log,
            r.original_row_idx = req.original_row_idx)) :=
  ⟨by decide, claim8_resume [0, 1, 2] {1} (by decide)⟩

/-- Every attempt's event trace begins with the inner-semaphore acquisition,
the in-progress increment, and the HTTP call. -/
theorem process_events_shape (now : ℚ) (tpm : Bool) (blocked : _TokenCount)
    (st : OnlineStatusTracker) (req : APIRequest) (o : CallOutcome) :
    ∃ rest, (process_with_semaphore now tpm blocked st req o).events
      = Ev.acquireSem :: Ev.incInProgress :: Ev.httpCall :: rest := by
  by_cases ha : 0 < req.attempts_left <;>
    cases o with
    | httpOk p c fi sok =>
      cases fi <;> cases sok <;> cases tpm <;>
        simp [process_with_semaphore, handle_single_request_with_retries,
          call_single_request, except_branch, ha]
    | errorBody isRL =>
      cases isRL <;>
        simp [process_with_semaphore, handle_single_request_with_retries,
          call_single_request, except_branch, ha]
    | badStatus =>
      simp [process_with_semaphore, handle_single_request_with_retries,
        call_single_request, except_branch, ha]
    | readTimeout =>
      simp [process_with_semaphore, handle_single_request_with_retries,
        call_single_request, except_branch, ha]
    | otherFailure =>
      simp [process_with_semaphore, handle_single_request_with_retries,
        call_single_request, except_branch, ha]

/-- The full event trace of a successful attempt under an active
tokens-per-minute limit: reconciliation (`free_capacity` with the actual
usage and the blocked capacity) happens strictly before the success record is
appended. -/
theorem process_success_events (now : ℚ) (blocked : _TokenCount)
    (st : OnlineStatusTracker) (req : APIRequest) (p c : Int) :
    (process_with_semaphore now true blocked st req
        (CallOutcome.httpOk p c false true)).events
      = [Ev.acquireSem, Ev.incInProgress, Ev.httpCall, Ev.checkFinish,
         Ev.updateStats, Ev.validateFormat, Ev.freeCapacity ⟨p, c⟩ blocked,
         Ev.addMovingWindow, Ev.releaseSem, Ev.appendSuccess, Ev.decInProgress,
         Ev.incSucceeded, Ev.decInProgress] := by
  simp [process_with_semaphore, handle_single_request_with_retries,
    call_single_request]

/-- An attempt succeeds only on a 200 body with a valid finish reason and a
format-conforming message. -/
theorem process_succeeded_outcome (now : ℚ) (tpm : Bool) (blocked : _TokenCount)
    (st : OnlineStatusTracker) (req : APIRequest) (o : CallOutcome)
    (hs : (process_with_semaphore now tpm blocked st req o).succeeded = true) :
    ∃ p c, o = CallOutcome.httpOk p c false true := by
  by_cases ha : 0 < req.attempts_left <;>
    cases o with
    | httpOk p c fi sok =>
      cases fi <;> cases sok <;>
        first
          | exact ⟨p, c, rfl⟩
          | simp [process_with_semaphore, handle_single_request_with_retries,
              call_single_request, except_branch, ha] at hs
    | errorBody isRL =>
      cases isRL <;>
        simp [process_with_semaphore, handle_single_request_with_retries,
          call_single_request, except_branch, ha] at hs
    | badStatus =>
      simp [process_with_semaphore, handle_single_request_with_retries,
        call_single_request, except_branch, ha] at hs
    | readTimeout =>
      simp [process_with_semaphore, handle_single_request_with_retries,
        call_single_request, except_branch, ha] at hs
    | otherFailure =>
      simp [process_with_semaphore, handle_single_request_with_retries,
        call_single_request, except_branch, ha] at hs

/-- A failed attempt never emits a `free_capacity` event: the capacity
reserved for it is not credited back. -/
theorem process_failure_no_free (now : ℚ) (tpm : Bool) (blocked : _TokenCount)
    (st : OnlineStatusTracker) (req : APIRequest) (o : CallOutcome)
    (hs : (process_with_semaphore now tpm blocked st req o).succeeded = false)
    (u b : _TokenCount) :
    Ev.freeCapacity u b ∉ (process_with_semaphore now tpm blocked st req o).events := by
  by_cases ha : 0 < req.attempts_left <;>
    cases o with
    | httpOk p c fi sok =>
      cases fi <;> cases sok <;> cases tpm <;>
        simp [process_with_semaphore, handle_single_request_with_retries,
          call_single_request, except_branch, ha] at hs ⊢
    | errorBody isRL =>
      cases isRL <;>
        simp [process_with_semaphore, handle_single_request_with_retries,
          call_single_request, except_branch, ha] at hs ⊢
    | badStatus =>
      simp [process_with_semaphore, handle_single_request_with_retries,
        call_single_request, except_branch, ha] at hs ⊢
    | readTimeout =>
      simp [process_with_semaphore, handle_single_request_with_retries,
        call_single_request, except_branch, ha] at hs ⊢
    | otherFailure =>
      simp [process_with_semaphore, handle_single_request_with_retries,
        call_single_request, except_branch, ha] at hs ⊢

/-- C1: for every admitted request (first attempt or retry, under an active
tokens-per-minute limit), `consume_capacity` with the token estimate happens
strictly before the request's HTTP-call task is launched and before the HTTP
call itself; on every successful attempt, `free_capacity` with the blocked
estimate and the provider-reported actual usage happens strictly before the
success record is appended to the response log; and a failed attempt never
emits a `free_capacity` event at all. -/
theorem claim1_reservation_discipline (now : ℚ) (blocked : _TokenCount)
    (est : Option _TokenCount) (st : OnlineStatusTracker) (req : APIRequest)
    (o : CallOutcome) (firstPass : Bool) :
    occursBefore (Ev.consumeCapacity est) Ev.launchTask
      (request_events
        (if firstPass then first_pass_admission_events est
          else retry_admission_events est)
        (process_with_semaphore now true blocked st req o)) ∧
    occursBefore (Ev.consumeCapacity est) Ev.httpCall
      (request_events
        (if firstPass then first_pass_admission_events est
          else retry_admission_events est)
        (process_with_semaphore now true blocked st req o)) ∧
    ((process_with_semaphore now true blocked st req o).succeeded = true →
      occursBefore (Ev.freeCapacity (reported_usage o) blocked) Ev.appendSuccess
        (request_events
          (if firstPass then first_pass_admission_events est
            else retry_admission_events est)
          (process_with_semaphore now true blocked st req o))) ∧
    ((process_with_semaphore now true blocked st req o).succeeded = false →
      ∀ u b : _TokenCount,
        Ev.freeCapacity u b ∉ (process_with_semaphore now true blocked st req o).events) := by
  obtain ⟨rest, hshape⟩ := process_events_shape now true blocked st req o
  refine ⟨?_, ?_, ?_, ?_⟩
  · cases firstPass
    · exact ⟨[Ev.waitCapacity], [],
        (process_with_semaphore now true blocked st req o).events,
        by simp [request_events, retry_admission_events]⟩
    · exact ⟨[Ev.waitCapacity, Ev.coolDown], [],
        Ev.incStarted :: (process_with_semaphore now true blocked st req o).events,
        by simp [request_events, first_pass_admission_events]⟩
  · cases firstPass
    · exact ⟨[Ev.waitCapacity], [Ev.launchTask, Ev.acquireSem, Ev.incInProgress],
        rest, by simp [request_events, retry_admission_events, hshape]⟩
    · exact ⟨[Ev.waitCapacity, Ev.coolDown],
        [Ev.launchTask, Ev.incStarted, Ev.acquireSem, Ev.incInProgress],
        rest, by simp [request_events, first_pass_admission_events, hshape]⟩
  · intro hs
    obtain ⟨p, c, ho⟩ := process_succeeded_outcome now true blocked st req o hs
    subst ho
    have hev := process_success_events now blocked st req p c
    cases firstPass
    · exact ⟨[Ev.waitCapacity, Ev.consumeCapacity est, Ev.launchTask,
          Ev.acquireSem, Ev.incInProgress, Ev.httpCall, Ev.checkFinish,
          Ev.updateStats, Ev.validateFormat],
        [Ev.addMovingWindow, Ev.releaseSem],
        [Ev.decInProgress, Ev.incSucceeded, Ev.decInProgress],
        by simp [request_events, retry_admission_events, hev, reported_usage]⟩
    · exact ⟨[Ev.waitCapacity, Ev.coolDown, Ev.consumeCapacity est,
          Ev.launchTask, Ev.incStarted, Ev.acquireSem, Ev.incInProgress,
          Ev.httpCall, Ev.checkFinish, Ev.updateStats, Ev.validateFormat],
        [Ev.addMovingWindow, Ev.releaseSem],
        [Ev.decInProgress, Ev.incSucceeded, Ev.decInProgress],
        by simp [request_events, first_pass_admission_events, hev, reported_usage]⟩
  · intro hs u b
    exact process_failure_no_free now true blocked st req o hs u b

/-- C1 witness: a first-pass success under an active TPM limit. -/
theorem claim1_witness :
    occursBefore (Ev.consumeCapacity (some ⟨5, 5⟩)) Ev.launchTask
      (request_events
        (if true then first_pass_admission_events (some ⟨5, 5⟩)
          else retry_admission_events (some ⟨5, 5⟩))
        (process_with_semaphore 0 true ⟨5, 5⟩ ⟨0, 0, 0, 0, 0, 0, 0, 0⟩
          ⟨0, 0, 3, []⟩ (CallOutcome.httpOk 4 2 false true))) ∧
    occursBefore (Ev.consumeCapacity (some ⟨5, 5⟩)) Ev.httpCall
      (request_events
        (if true then first_pass_admission_events (some ⟨5, 5⟩)
          else retry_admission_events (some ⟨5, 5⟩))
        (process_with_semaphore 0 true ⟨5, 5⟩ ⟨0, 0, 0, 0, 0, 0, 0, 0⟩
          ⟨0, 0, 3, []⟩ (CallOutcome.httpOk 4 2 false true))) ∧
    ((process_with_semaphore 0 true ⟨5, 5⟩ ⟨0, 0, 0, 0, 0, 0, 0, 0⟩
          ⟨0, 0, 3, []⟩ (CallOutcome.httpOk 4 2 false true)).succeeded = true →
      occursBefore
        (Ev.freeCapacity (reported_usage (CallOutcome.httpOk 4 2 false true)) ⟨5, 5⟩)
        Ev.appendSuccess
        (request_events
          (if true then first_pass_admission_events (some ⟨5, 5⟩)
            else retry_admission_events (some ⟨5, 5⟩))
          (process_with_semaphore 0 true ⟨5, 5⟩ ⟨0, 0, 0, 0, 0, 0, 0, 0⟩
            ⟨0, 0, 3, []⟩ (CallOutcome.httpOk 4 2 false true)))) ∧
    ((process_with_semaphore 0 true ⟨5, 5⟩ ⟨0, 0, 0, 0, 0, 0, 0, 0⟩
          ⟨0, 0, 3, []⟩ (CallOutcome.httpOk 4 2 false true)).succeeded = false →
      ∀ u b : _TokenCount,
        Ev.freeCapacity u b ∉
          (process_with_semaphore 0 true ⟨5, 5⟩ ⟨0, 0, 0, 0, 0, 0, 0, 0⟩
            ⟨0, 0, 3, []⟩ (CallOutcome.httpOk 4 2 false true)).events) :=
  claim1_reservation_discipline 0 ⟨5, 5⟩ (some ⟨5, 5⟩) ⟨0, 0, 0, 0, 0, 0, 0, 0⟩
    ⟨0, 0, 3, []⟩ (CallOutcome.httpOk 4 2 false true) true

/-- Setting one element shifts a `countP` by the predicate values of the old
and new elements. -/
theorem countP_set_eq (p : Phase → Bool) :
    ∀ (l : List Phase) (i : Nat) (v : Phase) (hi : i < l.length),
      (l.set i v).countP p + (if p (l.get ⟨i, hi⟩) then 1 else 0)
        = l.countP p + (if p v then 1 else 0) := by
  intro l
  induction l with
  | nil =>
    intro i v hi
    simp at hi
  | cons a l ihl =>
    intro i v hi
    cases i with
    | zero =>
      simp [List.countP_cons]
      omega
    | succ j =>
      have hj : j < l.length := by simpa using hi
      have hstep := ihl j v hj
      simp [List.countP_cons, List.get_eq_getElem] at hstep ⊢
      omega

/-- The terminal counts never exceed the count of non-idle records. -/
theorem countP_done_le_started (l : List Phase) :
    l.countP phaseSucc + l.countP phaseFail ≤ l.countP phaseStarted := by
  induction l with
  | nil => simp
  | cons a l ihl =>
    cases a <;>
      simp [List.countP_cons, phaseStarted, phaseSucc, phaseFail] <;> omega

/-- When no record is inflight, every non-idle record is terminal. -/
theorem countP_terminal_eq (l : List Phase)
    (h : ∀ x ∈ l, x ≠ Phase.inflight) :
    l.countP phaseStarted = l.countP phaseSucc + l.countP phaseFail := by
  induction l with
  | nil => simp
  | cons a l ihl =>
    have ha := h a (List.mem_cons_self a l)
    have hl : ∀ x ∈ l, x ≠ Phase.inflight := fun x hx => h x (List.mem_cons_of_mem a hx)
    cases a with
    | idle => simp [List.countP_cons, phaseStarted, phaseSucc, phaseFail, ihl hl]
    | inflight => exact absurd rfl ha
    | doneSucc =>
      simp [List.countP_cons, phaseStarted, phaseSucc, phaseFail, ihl hl]
      omega
    | doneFail =>
      simp [List.countP_cons, phaseStarted, phaseSucc, phaseFail, ihl hl]
      omega

/-- Every scheduler step preserves the counter invariant. -/
theorem schedStep_inv {s s' : SchedState} (hst : SchedStep s s')
    (hinv : schedInv s) : schedInv s' := by
  obtain ⟨h1, h2, h3⟩ := hinv
  cases hst with
  | launch i hi h =>
    have e1 := countP_set_eq phaseStarted s.phases i Phase.inflight hi
    have e2 := countP_set_eq phaseSucc s.phases i Phase.inflight hi
    have e3 := countP_set_eq phaseFail s.phases i Phase.inflight hi
    rw [h] at e1 e2 e3
    simp [phaseStarted, phaseSucc, phaseFail] at e1 e2 e3
    refine ⟨?_, ?_, ?_⟩ <;> dsimp only <;> omega
  | requeue i hi h => exact ⟨h1, h2, h3⟩
  | finishSucc i hi h =>
    have e1 := countP_set_eq phaseStarted s.phases i Phase.doneSucc hi
    have e2 := countP_set_eq phaseSucc s.phases i Phase.doneSucc hi
    have e3 := countP_set_eq phaseFail s.phases i Phase.doneSucc hi
    rw [h] at e1 e2 e3
    simp [phaseStarted, phaseSucc, phaseFail] at e1 e2 e3
    refine ⟨?_, ?_, ?_⟩ <;> dsimp only <;> omega
  | finishFail i hi h =>
    have e1 := countP_set_eq phaseStarted s.phases i Phase.doneFail hi
    have e2 := countP_set_eq phaseSucc s.phases i Phase.doneFail hi
    have e3 := countP_set_eq phaseFail s.phases i Phase.doneFail hi
    rw [h] at e1 e2 e3
    simp [phaseStarted, phaseSucc, phaseFail] at e1 e2 e3
    refine ⟨?_, ?_, ?_⟩ <;> dsimp only <;> omega

/-- A fully idle run has all counts zero. -/
theorem countP_replicate_idle (p : Phase → Bool) (hp : p Phase.idle = false)
    (n : Nat) : (List.replicate n Phase.idle).countP p = 0 := by
  induction n with
  | zero => simp
  | succ m ihm => simp [List.replicate_succ, List.countP_cons, hp, ihm]

/-- The counter invariant holds in every reachable state. -/
theorem schedReach_inv {s : SchedState} (h : SchedReach s) : schedInv s := by
  induction h with
  | init n =>
    exact ⟨(countP_replicate_idle phaseStarted rfl n).symm,
      (countP_replicate_idle phaseSucc rfl n).symm,
      (countP_replicate_idle phaseFail rfl n).symm⟩
  | step hr hst ih => exact schedStep_inv hst ih

/-- C7: in every state reachable during a run,
`num_tasks_succeeded + num_tasks_failed ≤ num_tasks_started`, and once no
request is inflight any more (as at termination of
`process_requests_from_file`) the two sides are equal. -/
theorem claim7_monotone_counters (s : SchedState) (h : SchedReach s) :
    s.num_tasks_succeeded + s.num_tasks_failed ≤ s.num_tasks_started ∧
    ((∀ x ∈ s.phases, x ≠ Phase.inflight) →
      s.num_tasks_succeeded + s.num_tasks_failed = s.num_tasks_started) := by
  obtain ⟨h1, h2, h3⟩ := schedReach_inv h
  constructor
  · rw [h1, h2, h3]
    exact countP_done_le_started s.phases
  · intro hterm
    rw [h1, h2, h3]
    exact (countP_terminal_eq s.phases hterm).symm

/-- C7 witness: a run over one record that is admitted and then succeeds. -/
theorem claim7_witness :
    ((⟨[Phase.doneSucc], 1, 1, 0⟩ : SchedState).num_tasks_succeeded
        + (⟨[Phase.doneSucc], 1, 1, 0⟩ : SchedState).num_tasks_failed
      ≤ (⟨[Phase.doneSucc], 1, 1, 0⟩ : SchedState).num_tasks_started) ∧
    ((∀ x ∈ (⟨[Phase.doneSucc], 1, 1, 0⟩ : SchedState).phases, x ≠ Phase.inflight) →
      (⟨[Phase.doneSucc], 1, 1, 0⟩ : SchedState).num_tasks_succeeded
          + (⟨[Phase.doneSucc], 1, 1, 0⟩ : SchedState).num_tasks_failed
        = (⟨[Phase.doneSucc], 1, 1, 0⟩ : SchedState).num_tasks_started) :=
  claim7_monotone_counters ⟨[Phase.doneSucc], 1, 1, 0⟩
    (SchedReach.step
      (SchedReach.step (SchedReach.init 1)
        (SchedStep.launch (schedInit 1) 0 (by decide) (by decide)))
      (SchedStep.finishSucc ⟨[Phase.inflight], 1, 0, 0⟩ 0 (by decide) (by decide)))

end Curator
